import Mathlib

/-!
Verification of the hvm-lang intermediate-representation core:
the term/pattern data model of `src/ast/hvm_lang.rs`, its pretty-printer
and operator-boundary conversions, and the constructor-resolution pass of
`src/term/transform/resolve_ctrs_in_pats.rs`, shallowly embedded in Lean.

Rust `panic!`/`todo!`/`unwrap` sites are modelled by `Option`-valued
functions returning `none`.
-/

/-- Interned string identifier (`Name` in the source). -/
abbrev Name := String

/-- Opaque integer handle for a top-level definition (`DefId` in the source). -/
abbrev DefId := Nat

/-- The internal numeric operator enumeration `Opr` of `src/ast/hvm_lang.rs`
(lines 88-105), one constructor per Rust variant. -/
inductive Opr where
| Add | Sub | Mul | Div | Mod | And | Or | Xor | Shl | Shr
| Ltn | Lte | Gtn | Gte | Eql | Neq
deriving DecidableEq, Repr

/-- The external runtime operator enumeration `hvm_core::OP`. Its declaration
is outside this repository; its exact variant list is determined by the
exhaustive (no-wildcard) match in `impl From<&hvm_core::OP> for Opr`
(`src/ast/hvm_lang.rs` lines 125-143), which compiles only if these are all
the variants. -/
inductive OP where
| ADD | SUB | MUL | DIV | MOD | EQ | NEQ | LT | GT | LTE | GTE | AND | OR
deriving DecidableEq, Repr

/-- The forward conversion `impl From<Opr> for hvm_core::OP`
(`src/ast/hvm_lang.rs` lines 107-114): only `Opr::Add` is mapped, every
other variant hits `todo!()`, modelled as `none`. -/
def OP.from_opr : Opr → Option OP
| Opr.Add => some OP.ADD
| _ => none

/-- The by-value reverse conversion `impl From<hvm_core::OP> for Opr`
(`src/ast/hvm_lang.rs` lines 116-123): only `OP::ADD` is mapped, every
other variant hits `todo!()`, modelled as `none`. -/
def Opr.from_op : OP → Option Opr
| OP.ADD => some Opr.Add
| _ => none

/-- The by-reference reverse conversion `impl From<&hvm_core::OP> for Opr`
(`src/ast/hvm_lang.rs` lines 125-143): every external variant has an
explicit arm returning an internal operator; arms are translated one-to-one,
wrapped in `some` (there is no `todo!()` in this impl). -/
def Opr.from_op_ref : OP → Option Opr
| OP.ADD => some Opr.Add
| OP.SUB => some Opr.Sub
| OP.MUL => some Opr.Mul
| OP.DIV => some Opr.Div
| OP.MOD => some Opr.Mod
| OP.EQ => some Opr.Eql
| OP.NEQ => some Opr.Neq
| OP.LT => some Opr.Ltn
| OP.GT => some Opr.Gtn
| OP.LTE => some Opr.Lte
| OP.GTE => some Opr.Gte
| OP.AND => some Opr.And
| OP.OR => some Opr.Or

/-- The pattern type `crate::term::Pattern` consumed by
`Pattern::resolve_ctrs` (`src/term/transform/resolve_ctrs_in_pats.rs`).
Its declaration is not under `src/`; the constructor list is exactly the
arms of the exhaustive match in `resolve_ctrs` (`Var(Some)`, `Ctr`,
`Var(None)`, `Num`, `Tup`), and the payload shapes follow the spec's data
model (section 3): `Ctr` holds a name and sub-patterns, `Num` a machine
literal (payload irrelevant to the pass, modelled as `Nat`), `Var` an
optional name, `Tup` a pair of sub-patterns. Named `TermPattern` here to
distinguish it from the `Pattern` of `src/ast/hvm_lang.rs`. -/
inductive TermPattern where
| Ctr : Name → List TermPattern → TermPattern
| Num : Nat → TermPattern
| Var : Option Name → TermPattern
| Tup : TermPattern → TermPattern → TermPattern

mutual

/-- `Pattern::resolve_ctrs` (`src/term/transform/resolve_ctrs_in_pats.rs`
lines 20-36): rewrites `Var(Some(nam))` with `is_ctr nam` into
`Ctr(nam, [])`, recurses into `Ctr` argument lists, and leaves `Var(None)`,
`Num` and `Tup` untouched. -/
def TermPattern.resolve_ctrs (is_ctr : Name → Bool) : TermPattern → TermPattern
| TermPattern.Var (some nam) =>
  if is_ctr nam then TermPattern.Ctr nam [] else TermPattern.Var (some nam)
| TermPattern.Ctr name args => TermPattern.Ctr name (resolveCtrsList is_ctr args)
| TermPattern.Var none => TermPattern.Var none
| TermPattern.Num n => TermPattern.Num n
| TermPattern.Tup a b => TermPattern.Tup a b

/-- The `for arg in args` loop of `resolve_ctrs` on a `Ctr` node: resolves
each sub-pattern in order. -/
def resolveCtrsList (is_ctr : Name → Bool) : List TermPattern → List TermPattern
| [] => []
| p :: ps => TermPattern.resolve_ctrs is_ctr p :: resolveCtrsList is_ctr ps

end

theorem resolveCtrsList_eq_map (c : Name → Bool) (ps : List TermPattern) :
    resolveCtrsList c ps = ps.map (TermPattern.resolve_ctrs c) := by
  induction ps with
  | nil => rfl
  | cons p ps ih => simp [resolveCtrsList, ih]

mutual

theorem resolve_ctrs_idem (c : Name → Bool) :
    (p : TermPattern) →
    TermPattern.resolve_ctrs c (TermPattern.resolve_ctrs c p) =
      TermPattern.resolve_ctrs c p
| TermPattern.Var (some nam) => by
  cases h : c nam <;>
    simp [TermPattern.resolve_ctrs, h, resolveCtrsList]
| TermPattern.Ctr name args => by
  simp [TermPattern.resolve_ctrs, resolveCtrsList_idem c args]
| TermPattern.Var none => rfl
| TermPattern.Num n => rfl
| TermPattern.Tup a b => rfl

theorem resolveCtrsList_idem (c : Name → Bool) :
    (ps : List TermPattern) →
    resolveCtrsList c (resolveCtrsList c ps) = resolveCtrsList c ps
| [] => rfl
| p :: ps => by
  simp [resolveCtrsList, resolve_ctrs_idem c p, resolveCtrsList_idem c ps]

end

mutual

/-- Detector for the frozen completeness property: does a pattern contain,
anywhere (including inside `Tup` components), a `Var(Some(n))` whose name
the oracle accepts as a constructor? -/
def TermPattern.hasCtrNamedVar (c : Name → Bool) : TermPattern → Bool
| TermPattern.Var (some n) => c n
| TermPattern.Var none => false
| TermPattern.Num _ => false
| TermPattern.Ctr _ args => hasCtrNamedVarList c args
| TermPattern.Tup a b =>
  TermPattern.hasCtrNamedVar c a || TermPattern.hasCtrNamedVar c b

/-- List version of `TermPattern.hasCtrNamedVar`. -/
def hasCtrNamedVarList (c : Name → Bool) : List TermPattern → Bool
| [] => false
| p :: ps => TermPattern.hasCtrNamedVar c p || hasCtrNamedVarList c ps

end

mutual

/-- Like `TermPattern.hasCtrNamedVar` but blind to `Tup` components: a
constructor-named `Var` counts only at positions `resolve_ctrs` actually
visits (the pass never descends into `Tup`). -/
def TermPattern.unresolvedCtrVar (c : Name → Bool) : TermPattern → Bool
| TermPattern.Var (some n) => c n
| TermPattern.Var none => false
| TermPattern.Num _ => false
| TermPattern.Ctr _ args => unresolvedCtrVarList c args
| TermPattern.Tup _ _ => false

/-- List version of `TermPattern.unresolvedCtrVar`. -/
def unresolvedCtrVarList (c : Name → Bool) : List TermPattern → Bool
| [] => false
| p :: ps => TermPattern.unresolvedCtrVar c p || unresolvedCtrVarList c ps

end

mutual

theorem resolve_ctrs_complete (c : Name → Bool) :
    (p : TermPattern) →
    TermPattern.unresolvedCtrVar c (TermPattern.resolve_ctrs c p) = false
| TermPattern.Var (some nam) => by
  cases h : c nam <;>
    simp [TermPattern.resolve_ctrs, h, TermPattern.unresolvedCtrVar,
      unresolvedCtrVarList]
| TermPattern.Ctr name args => by
  simp [TermPattern.resolve_ctrs, TermPattern.unresolvedCtrVar,
    resolveCtrsList_complete c args]
| TermPattern.Var none => rfl
| TermPattern.Num n => rfl
| TermPattern.Tup a b => rfl

theorem resolveCtrsList_complete (c : Name → Bool) :
    (ps : List TermPattern) →
    unresolvedCtrVarList c (resolveCtrsList c ps) = false
| [] => rfl
| p :: ps => by
  simp [resolveCtrsList, unresolvedCtrVarList, resolve_ctrs_complete c p,
    resolveCtrsList_complete c ps]

end

/-- The bidirectional `DefId` / `Name` table `DefNames = BiHashMap<DefId, Name>`
(`src/ast/hvm_lang.rs` line 6), modelled as an association list; rendering
only uses the left-to-right lookup `get_by_left`. -/
abbrev DefNames := List (DefId × Name)

/-- `BiHashMap::get_by_left`: look a definition's name up by its id. -/
def getByLeft (dn : DefNames) (i : DefId) : Option Name :=
  dn.lookup i

/-- The pattern type of `src/ast/hvm_lang.rs` lines 27-33:
`Ctr(Name, Vec<Pattern>)`, `U32(u32)`, `I32(i32)`, `Var(Option<Name>)`. -/
inductive Pattern where
| Ctr : Name → List Pattern → Pattern
| U32 : Nat → Pattern
| I32 : Int → Pattern
| Var : Option Name → Pattern

/-- The term type of `src/ast/hvm_lang.rs` lines 35-84, one constructor per
Rust variant (the commented-out `Let` variant is omitted, as in the source). -/
inductive Term where
| Lam : Option Name → Term → Term
| Var : Name → Term
| Chn : Name → Term → Term
| Lnk : Name → Term
| Ref : DefId → Term
| App : Term → Term → Term
| Dup : Option Name → Option Name → Term → Term → Term
| U32 : Nat → Term
| I32 : Int → Term
| Opx : Opr → Term → Term → Term
| Sup : Term → Term → Term
| Era : Term

/-- A rewrite rule of `src/ast/hvm_lang.rs` lines 20-25: a `DefId`, parameter
patterns and a body term. -/
structure Rule where
  def_id : DefId
  pats : List Pattern
  body : Term

/-- A top-level definition, `src/ast/hvm_lang.rs` lines 14-18. -/
structure Definition where
  def_id : DefId
  rules : List Rule

/-- The whole-program container of `src/ast/hvm_lang.rs` lines 8-12. -/
structure DefinitionBook where
  def_names : DefNames
  defs : List Definition

/-- The `Display` symbol of each operator, `src/ast/hvm_lang.rs`
lines 151-172. -/
def Opr.display : Opr → String
| Opr.Add => "+"
| Opr.Sub => "-"
| Opr.Mul => "*"
| Opr.Div => "/"
| Opr.Mod => "%"
| Opr.And => "&"
| Opr.Or => "|"
| Opr.Xor => "^"
| Opr.Shl => "<<"
| Opr.Shr => ">>"
| Opr.Ltn => "<"
| Opr.Lte => "<="
| Opr.Gtn => ">"
| Opr.Gte => ">="
| Opr.Eql => "=="
| Opr.Neq => "!="

/-- Rust's `format!("{num:+}")` on a signed integer: always print an
explicit sign. -/
def fmtSigned (n : Int) : String :=
  if n < 0 then toString n else "+" ++ toString n

mutual

/-- The `Display` rendering of a pattern, `src/ast/hvm_lang.rs`
lines 206-215. -/
def Pattern.display : Pattern → String
| Pattern.Ctr name pats => "(" ++ name ++ displayArgs pats ++ ")"
| Pattern.U32 num => toString num
| Pattern.I32 num => fmtSigned num
| Pattern.Var nam => nam.getD "*"

/-- The `pats.iter().map(|p| format!(" {p}")).join("")` part of the `Ctr`
arm: each argument rendered with a leading space, concatenated. -/
def displayArgs : List Pattern → String
| [] => ""
| p :: ps => " " ++ Pattern.display p ++ displayArgs ps

end

/-- Combine two rendered sub-terms; `none` (a panic in a sub-rendering)
propagates. -/
def omap2 (a b : Option String) (f : String → String → String) : Option String :=
  match a, b with
  | some x, some y => some (f x y)
  | _, _ => none

/-- `Term::to_string` (`src/ast/hvm_lang.rs` lines 174-204). The
`def_names.get_by_left(def_id).unwrap()` in the `Ref` arm panics when the id
is missing; here that is `none`, and a `none` from any sub-term propagates. -/
def Term.to_string (dn : DefNames) : Term → Option String
| Term.Lam nam bod =>
  (bod.to_string dn).map (fun b => "λ" ++ nam.getD "*" ++ " " ++ b)
| Term.Var nam => some nam
| Term.Chn nam bod =>
  (bod.to_string dn).map (fun b => "λ$" ++ nam ++ " " ++ b)
| Term.Lnk nam => some ("$" ++ nam)
| Term.Ref def_id => getByLeft dn def_id
| Term.App f a =>
  omap2 (f.to_string dn) (a.to_string dn)
    (fun sf sa => "(" ++ sf ++ " " ++ sa ++ ")")
| Term.Dup fst snd val nxt =>
  omap2 (val.to_string dn) (nxt.to_string dn)
    (fun sv sn =>
      "dup " ++ fst.getD "*" ++ " " ++ snd.getD "*" ++ " = " ++ sv ++ "; " ++ sn)
| Term.U32 val => some (toString val)
| Term.I32 val => some (fmtSigned val)
| Term.Opx op fst snd =>
  omap2 (fst.to_string dn) (snd.to_string dn)
    (fun sf ss => "(" ++ op.display ++ " " ++ sf ++ " " ++ ss ++ ")")
| Term.Sup fst snd =>
  omap2 (fst.to_string dn) (snd.to_string dn)
    (fun sf ss => "\x7b" ++ sf ++ " " ++ ss ++ "\x7d")
| Term.Era => some "*"

/-- Every `DefId` occurring in a term (the `def_id` of each `Ref` node). -/
def Term.refs : Term → List DefId
| Term.Lam _ bod => bod.refs
| Term.Var _ => []
| Term.Chn _ bod => bod.refs
| Term.Lnk _ => []
| Term.Ref def_id => [def_id]
| Term.App f a => f.refs ++ a.refs
| Term.Dup _ _ val nxt => val.refs ++ nxt.refs
| Term.U32 _ => []
| Term.I32 _ => []
| Term.Opx _ fst snd => fst.refs ++ snd.refs
| Term.Sup fst snd => fst.refs ++ snd.refs
| Term.Era => []

/-- The `pats.iter().map(|x| format!(" {x}")).join("")` part of
`Rule::to_string`. -/
def rulePatsStr : List Pattern → String
| [] => ""
| p :: ps => " " ++ Pattern.display p ++ rulePatsStr ps

/-- `Rule::to_string` (`src/ast/hvm_lang.rs` lines 217-227):
`"({name}{pats}) = {body}"`, where the name lookup unwraps and the body
rendering may itself panic. -/
def Rule.to_string (dn : DefNames) (r : Rule) : Option String :=
  omap2 (getByLeft dn r.def_id) (r.body.to_string dn)
    (fun n b => "(" ++ n ++ rulePatsStr r.pats ++ ") = " ++ b)

/-- The `rules.iter().map(|x| x.to_string(def_names)).join("")` of
`Definition::to_string`: renderings concatenated with no separator. -/
def rulesJoin (dn : DefNames) : List Rule → Option String
| [] => some ""
| r :: rs => omap2 (r.to_string dn) (rulesJoin dn rs) (fun s t => s ++ t)

/-- `Definition::to_string` (`src/ast/hvm_lang.rs` lines 229-233). -/
def Definition.to_string (dn : DefNames) (d : Definition) : Option String :=
  rulesJoin dn d.rules

/-- The `defs.iter().map(|x| x.to_string(def_names)).join("\n")` of
`DefinitionBook::to_string`: renderings joined by one newline. -/
def defsJoin (dn : DefNames) : List Definition → Option String
| [] => some ""
| [d] => d.to_string dn
| d :: ds => omap2 (d.to_string dn) (defsJoin dn ds) (fun s t => s ++ "\n" ++ t)

/-- `DefinitionBook::to_string` (`src/ast/hvm_lang.rs` lines 235-239). -/
def DefinitionBook.to_string (dn : DefNames) (b : DefinitionBook) : Option String :=
  defsJoin dn b.defs

/-- Modelled from the spec: the rule type of the `crate::term` module, whose
declaration is not under `src/`. Per the spec's data model (section 3) a rule
is a `DefId`, an ordered list of parameter patterns and a body term; the
resolution pass reads and rewrites only `pats`. -/
structure TermRule where
  def_id : DefId
  pats : List TermPattern
  body : Term

/-- Modelled from the spec: a `crate::term` definition, a `DefId` plus its
ordered rules (spec section 3). -/
structure TermDef where
  def_id : DefId
  rules : List TermRule

/-- Modelled from the spec: the `crate::term::Book` program container
(spec section 3) — the name table, all definitions, and the declared
constructor-name set. In the source `ctrs` is a map whose keys are the
constructor names; the pass reads only `ctrs.contains_key(nam)`, so the key
set is modelled as a list of names. `defs` is the sequence of definitions
iterated by `defs.values_mut()`. -/
structure Book where
  def_names : DefNames
  defs : List TermDef
  ctrs : List Name

/-- The oracle `|nam| self.ctrs.contains_key(nam)` passed by
`Book::resolve_ctrs_in_pats`. -/
def Book.is_ctr (b : Book) (nam : Name) : Bool :=
  b.ctrs.contains nam

/-- The innermost loop body of `Book::resolve_ctrs_in_pats`: every pattern
of one rule is resolved in place. -/
def resolveRule (c : Name → Bool) (r : TermRule) : TermRule :=
  { r with pats := r.pats.map (TermPattern.resolve_ctrs c) }

/-- The middle loop of `Book::resolve_ctrs_in_pats`: every rule of one
definition. -/
def resolveDef (c : Name → Bool) (d : TermDef) : TermDef :=
  { d with rules := d.rules.map (resolveRule c) }

/-- `Book::resolve_ctrs_in_pats` (`src/term/transform/resolve_ctrs_in_pats.rs`
lines 8-16): for every definition, every rule, every pattern, run
`resolve_ctrs` with the book's constructor oracle. Only rule patterns are
written; the name table and the constructor table are read-only. -/
def Book.resolve_ctrs_in_pats (b : Book) : Book :=
  { b with defs := b.defs.map (resolveDef b.is_ctr) }

/-- Does any rule pattern of the book contain, anywhere (including inside
`Tup` components), a `Var(Some(n))` with `n` a declared constructor? -/
def Book.hasCtrNamedVar (b : Book) : Bool :=
  b.defs.any fun d => d.rules.any fun r =>
    r.pats.any (TermPattern.hasCtrNamedVar b.is_ctr)

/-- Does any rule pattern of the book contain a constructor-named
`Var(Some(n))` at a position not nested inside a `Tup`? -/
def Book.unresolvedCtrVar (b : Book) : Bool :=
  b.defs.any fun d => d.rules.any fun r =>
    r.pats.any (TermPattern.unresolvedCtrVar b.is_ctr)

theorem resolveRule_idem (c : Name → Bool) (r : TermRule) :
    resolveRule c (resolveRule c r) = resolveRule c r := by
  simp only [resolveRule, List.map_map]
  congr 1
  apply List.map_congr_left
  intro p _
  exact resolve_ctrs_idem c p

theorem resolveDef_idem (c : Name → Bool) (d : TermDef) :
    resolveDef c (resolveDef c d) = resolveDef c d := by
  simp only [resolveDef, List.map_map]
  congr 1
  apply List.map_congr_left
  intro r _
  exact resolveRule_idem c r

/-- Claim C2 (counterexample): the claim says the external-to-internal
operator conversion is total, but the by-value `impl From<hvm_core::OP> for
Opr` hits `todo!()` (a panic) on `OP::SUB`, so converting `OP::SUB` by value
does not return an internal operator. -/
theorem from_op_by_value_not_total : Opr.from_op OP.SUB = none := rfl

/-- Claim C2 (amended): the by-reference conversion
`impl From<&hvm_core::OP> for Opr` is total — every external variant returns
an internal operator — while the by-value conversion `impl From<hvm_core::OP>
for Opr` succeeds only on `OP::ADD` and panics (`todo!()`) on every other
external variant. -/
theorem from_op_ref_total :
    (∀ v : OP, (Opr.from_op_ref v).isSome = true)
    ∧ Opr.from_op OP.ADD = some Opr.Add
    ∧ ∀ v : OP, v ≠ OP.ADD → Opr.from_op v = none := by
  refine ⟨fun v => by cases v <;> rfl, rfl, fun v h => ?_⟩
  cases v <;> first | rfl | exact absurd rfl h

/-- Witness for `from_op_ref_total`: the fail-fast branch at the concrete
input `OP::SUB`. -/
theorem from_op_ref_total_witness :
    OP.SUB ≠ OP.ADD ∧ Opr.from_op OP.SUB = none :=
  ⟨by decide, from_op_ref_total.2.2 OP.SUB (by decide)⟩

/-- Claim C5: converting `Opr::Add` to the external representation succeeds
with `OP::ADD` and converting that back yields `Opr::Add`; converting any
other internal operator to the external representation hits `todo!()`
(modelled `none`) instead of returning an operator code. -/
theorem opr_boundary_roundtrip_failfast :
    OP.from_opr Opr.Add = some OP.ADD
    ∧ Opr.from_op OP.ADD = some Opr.Add
    ∧ ∀ o : Opr, o ≠ Opr.Add → OP.from_opr o = none := by
  refine ⟨rfl, rfl, fun o h => ?_⟩
  cases o <;> first | rfl | exact absurd rfl h

/-- Witness for `opr_boundary_roundtrip_failfast`: the fail-fast branch at
the concrete input `Opr::Sub`. -/
theorem opr_boundary_roundtrip_failfast_witness :
    Opr.Sub ≠ Opr.Add ∧ OP.from_opr Opr.Sub = none :=
  ⟨by decide, opr_boundary_roundtrip_failfast.2.2 Opr.Sub (by decide)⟩

/-- Claim C7: the fixed pretty-printing surface forms — a zero-argument
constructor pattern named Nil renders as (Nil), a wildcard pattern renders
as an asterisk, signed integer literals always carry an explicit sign, and
unsigned literals are plain. -/
theorem pattern_display_surface_forms :
    Pattern.display (Pattern.Ctr "Nil" []) = "(Nil)"
    ∧ Pattern.display (Pattern.Var none) = "*"
    ∧ Pattern.display (Pattern.I32 (-3)) = "-3"
    ∧ Pattern.display (Pattern.I32 3) = "+3"
    ∧ Pattern.display (Pattern.U32 3) = "3"
    ∧ Term.to_string [] (Term.I32 (-3)) = some "-3"
    ∧ Term.to_string [] (Term.I32 3) = some "+3"
    ∧ Term.to_string [] (Term.U32 3) = some "3" := by
  refine ⟨rfl, rfl, ?_, ?_, rfl, ?_, ?_, rfl⟩ <;> rfl

/-- A concrete program for the completeness counterexample: one definition,
one rule, whose single pattern is a tuple holding a variable named after the
declared constructor Nil. -/
def tupBook : Book :=
  { def_names := [(0, "F")],
    defs := [{ def_id := 0,
               rules := [{ def_id := 0,
                           pats := [TermPattern.Tup
                             (TermPattern.Var (some "Nil"))
                             (TermPattern.Var none)],
                           body := Term.Era }] }],
    ctrs := ["Nil"] }

/-- Claim C1 (counterexample): after running the pass once on `tupBook`, a
`Var(Some("Nil"))` with Nil a declared constructor still exists inside a
rule's pattern list — `resolve_ctrs` never descends into `Tup` components,
so the frozen completeness property fails there. -/
theorem resolve_ctrs_in_pats_not_complete_in_tup :
    tupBook.resolve_ctrs_in_pats.hasCtrNamedVar = true := by decide

/-- Claim C1 (amended): after running `resolve_ctrs_in_pats` once, no
`Var(Some(name))` with `name` a declared constructor exists at any position
of any rule's pattern list that is not nested inside a `Tup` pattern; every
such occurrence has been replaced by `Ctr(name, [])`. Stated for an
arbitrary oracle at the pattern level and for the book's own constructor
table at the program level. -/
theorem resolve_ctrs_in_pats_complete_outside_tup :
    (∀ (c : Name → Bool) (p : TermPattern),
      TermPattern.unresolvedCtrVar c (TermPattern.resolve_ctrs c p) = false)
    ∧ ∀ b : Book, b.resolve_ctrs_in_pats.unresolvedCtrVar = false := by
  refine ⟨resolve_ctrs_complete, fun b => ?_⟩
  show (b.defs.map (resolveDef b.is_ctr)).any
      (fun d => d.rules.any fun r =>
        r.pats.any (TermPattern.unresolvedCtrVar b.is_ctr)) = false
  rw [List.any_eq_false]
  intro d hd
  rcases List.mem_map.mp hd with ⟨d0, _, rfl⟩
  rw [Bool.not_eq_true, resolveDef, List.any_eq_false]
  intro r hr
  rcases List.mem_map.mp hr with ⟨r0, _, rfl⟩
  rw [Bool.not_eq_true, resolveRule, List.any_eq_false]
  intro p hp
  rcases List.mem_map.mp hp with ⟨p0, _, rfl⟩
  rw [Bool.not_eq_true]
  exact resolve_ctrs_complete b.is_ctr p0

/-- Claim C3: the pass is idempotent — running `resolve_ctrs_in_pats` twice
on any program yields the same program as running it once. -/
theorem resolve_ctrs_in_pats_idempotent :
    ∀ b : Book,
      b.resolve_ctrs_in_pats.resolve_ctrs_in_pats = b.resolve_ctrs_in_pats := by
  intro b
  show { b with defs :=
      (b.defs.map (resolveDef b.is_ctr)).map (resolveDef b.is_ctr) }
    = { b with defs := b.defs.map (resolveDef b.is_ctr) }
  rw [List.map_map]
  congr 1
  apply List.map_congr_left
  intro d _
  exact resolveDef_idem b.is_ctr d

/-- Claim C4: non-interference — the pass leaves `Var(None)` and numeric
patterns unchanged, and keeps every `Ctr` node's head name and argument
count, only rewriting its sub-patterns recursively. -/
theorem resolve_ctrs_noninterference :
    ∀ c : Name → Bool,
      TermPattern.resolve_ctrs c (TermPattern.Var none) = TermPattern.Var none
      ∧ (∀ n, TermPattern.resolve_ctrs c (TermPattern.Num n) = TermPattern.Num n)
      ∧ ∀ (name : Name) (args : List TermPattern),
          TermPattern.resolve_ctrs c (TermPattern.Ctr name args)
            = TermPattern.Ctr name (args.map (TermPattern.resolve_ctrs c))
          ∧ (args.map (TermPattern.resolve_ctrs c)).length = args.length := by
  intro c
  refine ⟨rfl, fun n => rfl, fun name args => ⟨?_, by simp⟩⟩
  simp [TermPattern.resolve_ctrs, resolveCtrsList_eq_map]

/-- Claim C9: `resolve_ctrs` leaves every `Tup` pattern, and everything
nested inside it, completely unchanged; in particular a constructor-named
variable inside a tuple component survives resolution unrewritten. -/
theorem resolve_ctrs_tup_untouched :
    ∀ (c : Name → Bool) (a b : TermPattern),
      TermPattern.resolve_ctrs c (TermPattern.Tup a b) = TermPattern.Tup a b
      ∧ ∀ (n : Name) (b2 : TermPattern),
          TermPattern.resolve_ctrs c
              (TermPattern.Tup (TermPattern.Var (some n)) b2)
            = TermPattern.Tup (TermPattern.Var (some n)) b2 :=
  fun _ _ _ => ⟨rfl, fun _ _ => rfl⟩

/-- Claim C6: locality of the pass — the name table and the constructor
table are unmodified, and the rule found at any position (i, j) after the
pass is exactly the input rule at (i, j) with only its own pattern list
rewritten (same `def_id`, same body); its result depends only on that rule's
own patterns and the oracle, never on any other rule. -/
theorem resolve_ctrs_in_pats_locality :
    ∀ (b : Book) (i j : Nat) (d : TermDef) (r : TermRule),
      b.defs[i]? = some d → d.rules[j]? = some r →
      b.resolve_ctrs_in_pats.def_names = b.def_names
      ∧ b.resolve_ctrs_in_pats.ctrs = b.ctrs
      ∧ ∃ d2, b.resolve_ctrs_in_pats.defs[i]? = some d2
          ∧ d2.def_id = d.def_id
          ∧ d2.rules[j]? = some
              { def_id := r.def_id,
                pats := r.pats.map (TermPattern.resolve_ctrs b.is_ctr),
                body := r.body } := by
  intro b i j d r hd hr
  refine ⟨rfl, rfl, resolveDef b.is_ctr d, ?_, rfl, ?_⟩
  · show (b.defs.map (resolveDef b.is_ctr))[i]? = some (resolveDef b.is_ctr d)
    rw [List.getElem?_map, hd]
    rfl
  · show (d.rules.map (resolveRule b.is_ctr))[j]? = some _
    rw [List.getElem?_map, hr]
    rfl

/-- A two-rule, two-definition program for the locality witness. -/
def locBook : Book :=
  { def_names := [(0, "F"), (1, "G")],
    defs := [{ def_id := 0,
               rules := [{ def_id := 0,
                           pats := [TermPattern.Var (some "Nil"),
                                    TermPattern.Var (some "x")],
                           body := Term.Era }] },
             { def_id := 1,
               rules := [{ def_id := 1,
                           pats := [TermPattern.Var (some "y")],
                           body := Term.U32 0 }] }],
    ctrs := ["Nil"] }

/-- The first definition of `locBook`. -/
def locDef : TermDef :=
  { def_id := 0,
    rules := [{ def_id := 0,
                pats := [TermPattern.Var (some "Nil"),
                         TermPattern.Var (some "x")],
                body := Term.Era }] }

/-- The single rule of `locDef`. -/
def locRule : TermRule :=
  { def_id := 0,
    pats := [TermPattern.Var (some "Nil"), TermPattern.Var (some "x")],
    body := Term.Era }

/-- Witness for `resolve_ctrs_in_pats_locality` at the concrete program
`locBook`, definition 0, rule 0. -/
theorem resolve_ctrs_in_pats_locality_witness :
    locBook.defs[0]? = some locDef
    ∧ locDef.rules[0]? = some locRule
    ∧ (locBook.resolve_ctrs_in_pats.def_names = locBook.def_names
      ∧ locBook.resolve_ctrs_in_pats.ctrs = locBook.ctrs
      ∧ ∃ d2, locBook.resolve_ctrs_in_pats.defs[0]? = some d2
          ∧ d2.def_id = locDef.def_id
          ∧ d2.rules[0]? = some
              { def_id := locRule.def_id,
                pats := locRule.pats.map
                  (TermPattern.resolve_ctrs locBook.is_ctr),
                body := locRule.body }) :=
  ⟨rfl, rfl, resolve_ctrs_in_pats_locality locBook 0 0 locDef locRule rfl rfl⟩

theorem omap2_isSome (a b : Option String) (f : String → String → String) :
    (omap2 a b f).isSome = true ↔ (a.isSome = true ∧ b.isSome = true) := by
  cases a <;> cases b <;> simp [omap2]

theorem term_to_string_isSome (dn : DefNames) (t : Term) :
    (t.to_string dn).isSome = true
      ↔ ∀ i ∈ t.refs, (getByLeft dn i).isSome = true := by
  induction t with
  | Lam nam bod ih => simp [Term.to_string, Term.refs, ih]
  | Var nam => simp [Term.to_string, Term.refs]
  | Chn nam bod ih => simp [Term.to_string, Term.refs, ih]
  | Lnk nam => simp [Term.to_string, Term.refs]
  | Ref i => simp [Term.to_string, Term.refs]
  | App f a ihf iha =>
    simp [Term.to_string, Term.refs, omap2_isSome, ihf, iha,
      List.forall_mem_append, or_imp, forall_and]
  | Dup fst snd val nxt ihv ihn =>
    simp [Term.to_string, Term.refs, omap2_isSome, ihv, ihn,
      List.forall_mem_append, or_imp, forall_and]
  | U32 val => simp [Term.to_string, Term.refs]
  | I32 val => simp [Term.to_string, Term.refs]
  | Opx op fst snd ihf ihs =>
    simp [Term.to_string, Term.refs, omap2_isSome, ihf, ihs,
      List.forall_mem_append, or_imp, forall_and]
  | Sup fst snd ihf ihs =>
    simp [Term.to_string, Term.refs, omap2_isSome, ihf, ihs,
      List.forall_mem_append, or_imp, forall_and]
  | Era => simp [Term.to_string, Term.refs]

/-- Claim C8: referential-integrity precondition for rendering — a term or
rule renders successfully exactly when every `DefId` occurring in it (each
`Ref`'s id, and for a rule also its own `def_id`) is a key of the name
table; any absent id makes the rendering halt (the `unwrap` panic, modelled
`none`) instead of producing output. -/
theorem to_string_refs_integrity :
    ∀ dn : DefNames,
      (∀ t : Term, (t.to_string dn).isSome = true
        ↔ ∀ i ∈ t.refs, (getByLeft dn i).isSome = true)
      ∧ ∀ r : Rule, (r.to_string dn).isSome = true
          ↔ ((getByLeft dn r.def_id).isSome = true
            ∧ ∀ i ∈ r.body.refs, (getByLeft dn i).isSome = true) := by
  intro dn
  refine ⟨term_to_string_isSome dn, fun r => ?_⟩
  simp [Rule.to_string, omap2_isSome, term_to_string_isSome dn]

/-- Witness for `to_string_refs_integrity`: with the one-entry table
mapping id 0 to F, the term `Ref 0` renders successfully, and a rule whose
`def_id` is the dangling id 1 does not. -/
theorem to_string_refs_integrity_witness :
    (Term.to_string [(0, "F")] (Term.Ref 0)).isSome = true
    ∧ (Rule.to_string [(0, "F")]
        { def_id := 1, pats := [], body := Term.Era }).isSome = false := by
  constructor
  · exact ((to_string_refs_integrity [(0, "F")]).1 (Term.Ref 0)).mpr
      (by decide)
  · decide

/-- Claim C10: for any number of rules and definitions —
`Definition::to_string` concatenates its rules' renderings with no separator
(prepending one more rendered rule to any rule list inserts nothing between
it and the rest), while `DefinitionBook::to_string` joins its definitions'
renderings with exactly one newline between consecutive definitions
(prepending one more rendered definition to any nonempty definition list
inserts exactly one newline). -/
theorem definition_book_to_string_joins :
    ∀ dn : DefNames,
      (∀ (did : DefId) (r : Rule) (rs : List Rule) (s t : String),
        r.to_string dn = some s →
        Definition.to_string dn { def_id := did, rules := rs } = some t →
        Definition.to_string dn { def_id := did, rules := r :: rs }
          = some (s ++ t))
      ∧ ∀ (nb : DefNames) (d : Definition) (ds : List Definition)
          (s t : String),
          ds ≠ [] →
          d.to_string dn = some s →
          DefinitionBook.to_string dn { def_names := nb, defs := ds }
            = some t →
          DefinitionBook.to_string dn { def_names := nb, defs := d :: ds }
            = some (s ++ "\n" ++ t) := by
  intro dn
  constructor
  · intro did r rs s t h1 h2
    simp only [Definition.to_string] at h2 ⊢
    simp [rulesJoin, omap2, h1, h2]
  · intro nb d ds s t hne h1 h2
    cases ds with
    | nil => exact absurd rfl hne
    | cons d2 ds2 =>
      simp only [DefinitionBook.to_string] at h2 ⊢
      simp [defsJoin, omap2, h1, h2]

/-- A one-rule definition used by the join witness. -/
def joinDef : Definition :=
  { def_id := 0, rules := [{ def_id := 0, pats := [], body := Term.Era }] }

/-- Witness for `definition_book_to_string_joins` with the table mapping 0
to F: the rule renders as "(F) = *"; prepending it to a one-rule definition
runs the two renderings together with no separator, and prepending `joinDef`
to a one-definition book inserts exactly one newline. -/
theorem definition_book_to_string_joins_witness :
    Rule.to_string [(0, "F")] { def_id := 0, pats := [], body := Term.Era }
      = some "(F) = *"
    ∧ Definition.to_string [(0, "F")]
        { def_id := 0,
          rules := [{ def_id := 0, pats := [], body := Term.Era }] }
      = some "(F) = *"
    ∧ Definition.to_string [(0, "F")]
        { def_id := 0,
          rules := [{ def_id := 0, pats := [], body := Term.Era },
                    { def_id := 0, pats := [], body := Term.Era }] }
      = some ("(F) = *" ++ "(F) = *")
    ∧ ([joinDef] ≠ ([] : List Definition)
      ∧ joinDef.to_string [(0, "F")] = some "(F) = *"
      ∧ DefinitionBook.to_string [(0, "F")]
          { def_names := [(0, "F")], defs := [joinDef] } = some "(F) = *"
      ∧ DefinitionBook.to_string [(0, "F")]
          { def_names := [(0, "F")], defs := [joinDef, joinDef] }
        = some ("(F) = *" ++ "\n" ++ "(F) = *")) := by
  have h : Rule.to_string [(0, "F")]
      { def_id := 0, pats := [], body := Term.Era } = some "(F) = *" := by
    decide
  have h1 : Definition.to_string [(0, "F")]
      { def_id := 0,
        rules := [{ def_id := 0, pats := [], body := Term.Era }] }
      = some "(F) = *" := by
    decide
  have hd : joinDef.to_string [(0, "F")] = some "(F) = *" := by
    decide
  have hb1 : DefinitionBook.to_string [(0, "F")]
      { def_names := [(0, "F")], defs := [joinDef] } = some "(F) = *" := by
    decide
  exact ⟨h, h1,
    (definition_book_to_string_joins [(0, "F")]).1 0 _ _ _ _ h h1,
    List.cons_ne_nil _ _, hd, hb1,
    (definition_book_to_string_joins [(0, "F")]).2 [(0, "F")] joinDef
      [joinDef] _ _ (List.cons_ne_nil _ _) hd hb1⟩
